import Mathlib

/-!
Verification development for the core of the halturin/node runtime
(an Erlang-style distributed actor node written in Go).

The development shallowly embeds three parts of the source:

* `src/etf/read.go` — the iterative External Term Format decoder
  (`Decode`), including its explicit stack machine for composite
  terms;
* `src/registrar.go` — the registrar state machine (PID allocation,
  name/process/peer tables, routing with bounded retry);
* `src/application.go` — the application supervision loop's handling
  of child EXIT messages under the three restart strategies.

Go machine integers are modelled as `Nat`/`Int` with explicit
wrap-around (`% 2^32`, `% 2^64`) where the source relies on it.
Go runtime panics (index out of range, slice bounds out of range,
nil-pointer dereference, failed interface type assertion) are
modelled as explicit error values, since several claims are about
their absence.  A Go slice expression `s[a:b]` with `b > len(s)`
either panics (when `b > cap(s)`) or silently reads bytes beyond the
logical end of the input; both outcomes are collapsed into the
single `panicked` error value because every claim that can reach
this situation forbids both behaviours.
-/

set_option maxHeartbeats 1000000

namespace Ergo

/-- ETF process identifier, `etf.Pid` from the source: node atom,
32-bit id, 32-bit serial, creation byte. -/
structure Pid where
  node : String
  id : Nat
  serial : Nat
  creation : Nat
deriving DecidableEq, Repr

/-- In-memory ETF term, the shallow embedding of `etf.Term`
(Go `interface{}`).  `undef` models the Go nil interface (the zero
value that fills freshly allocated `List`/`Tuple` slots before the
decoder writes to them).  Go `string` values (`ettString`) and
`etf.Atom` values are kept distinct, exactly as the decoder's type
assertions distinguish them.  Floats are kept as their IEEE-754 bit
pattern (`math.Float64frombits` is modelled as the identity on
bits); no claim interprets a float value. -/
inductive Term where
  | undef
  | atom (s : String)
  | str (s : String)
  | int (n : Nat)
  | int64 (n : Int)
  | float (bits : Nat)
  | bigInt (n : Int)
  | binary (bs : List Nat)
  | list (ts : List Term)
  | tuple (ts : List Term)
  | mp (kvs : List (Term × Term))
  | pidT (p : Pid)
  | refT (node : String) (ids : List Nat) (creation : Nat)
  | portT (node : String) (id : Nat) (creation : Nat)
  | funT (arity : Nat) (uniq : List Nat) (index : Nat) (oldIndex : Nat) (oldUnique : Nat)
      (modName : String) (pid : Pid) (freeVars : List Term)
deriving BEq, Repr

/-- ETF tag bytes.  `src/etf/read.go` imports them from a constants
file of this repository that is not under `src/`.  Modelled from the
spec: the spec's concrete scenarios fix `ettSmallInteger = 97`,
`ettSmallTuple = 104`, `ettNil = 106`, `ettList = 108` and
`ettSmallBig = 110`, and §6 states the wire format is the standard
Erlang external term format, which fixes the remaining values. -/
def ettAtom : Nat := 100
def ettAtomUTF8 : Nat := 118
def ettSmallAtom : Nat := 115
def ettSmallAtomUTF8 : Nat := 119
def ettString : Nat := 107
def ettCacheRef : Nat := 82
def ettNewFloat : Nat := 70
def ettSmallInteger : Nat := 97
def ettInteger : Nat := 98
def ettSmallBig : Nat := 110
def ettLargeBig : Nat := 111
def ettList : Nat := 108
def ettSmallTuple : Nat := 104
def ettLargeTuple : Nat := 105
def ettMap : Nat := 116
def ettBinary : Nat := 109
def ettNil : Nat := 106
def ettPid : Nat := 103
def ettNewPid : Nat := 88
def ettNewRef : Nat := 114
def ettNewerRef : Nat := 90
def ettPort : Nat := 102
def ettNewPort : Nat := 89
def ettNewFun : Nat := 112
def ettBitBinary : Nat := 77

/-- Decoder outcomes: one error value per `ErrMalformed*` variable of
`src/etf/read.go`, plus `panicked`, which models a Go runtime panic
(or an out-of-bounds read past the input, see the file comment). -/
inductive DecodeErr where
  | malformedAtomUTF8
  | malformedSmallAtomUTF8
  | malformedString
  | malformedCacheRef
  | malformedNewFloat
  | malformedSmallInteger
  | malformedInteger
  | malformedSmallBig
  | malformedLargeBig
  | malformedList
  | malformedSmallTuple
  | malformedLargeTuple
  | malformedMap
  | malformedBinary
  | malformedBitBinary
  | malformedPid
  | malformedNewPid
  | malformedRef
  | malformedNewRef
  | malformedPort
  | malformedNewPort
  | malformedUnknownType
  | malformedFun
  | malformedPacketLength
  | malformed
  | internal
  | panicked
deriving DecidableEq, Repr

/-- Big-endian 16-bit read, `binary.BigEndian.Uint16`. -/
def be16 (b0 b1 : Nat) : Nat := b0 * 256 + b1

/-- Big-endian 32-bit read, `binary.BigEndian.Uint32`. -/
def be32 (b0 b1 b2 b3 : Nat) : Nat := ((b0 * 256 + b1) * 256 + b2) * 256 + b3

/-- Big-endian 64-bit read, `binary.BigEndian.Uint64`. -/
def be64 (b0 b1 b2 b3 b4 b5 b6 b7 : Nat) : Nat :=
  (((((((b0 * 256 + b1) * 256 + b2) * 256 + b3) * 256 + b4) * 256 + b5) * 256 + b6) * 256 + b7)

/-- Little-endian value of a byte sequence; this is what the Go code
computes by reversing the bytes in place and calling
`big.Int.SetBytes` (big-endian) on the result, and also what
`binary.LittleEndian.Uint64` computes on the zero-padded 8-byte
buffer of the fast `ettSmallBig` path. -/
def leNat (bs : List Nat) : Nat := bs.foldr (fun b acc => acc * 256 + b) 0

/-- Reinterpret an unsigned 64-bit value as Go `int64`. -/
def toSigned64 (n : Nat) : Int :=
  if n < 9223372036854775808 then (n : Int) else (n : Int) - 18446744073709551616

/-- Reinterpret an unsigned 32-bit value as Go `int32`. -/
def toSigned32 (n : Nat) : Int :=
  if n < 2147483648 then (n : Int) else (n : Int) - 4294967296

/-- Go `uint32(v)` conversion of an `int64` value. -/
def u32ofInt (v : Int) : Nat := (v % 4294967296).toNat

/-- Conversion of raw bytes to a string, used where the Go code
converts a byte slice to `string`/`Atom`.  Each byte becomes the
Unicode code point of the same value (Go's semantics for UTF-8 are
collapsed to this byte-wise map; no claim inspects multi-byte atom
contents, and the map is injective on byte sequences). -/
def bytesToStr (bs : List Nat) : String :=
  String.mk (bs.map (fun b => Char.ofNat b))

/-- Constant `biggestInt` from the source: `big.NewInt(0xfffffffffffffff)`,
which is `2^60 - 1`. -/
def biggestInt : Int := 1152921504606846975

/-- Constant `lowestInt` from the source: `big.NewInt(-0xfffffffffffffff)`. -/
def lowestInt : Int := -1152921504606846975

/-- Scratch slot of a decoder stack frame (`stackElement.tmp`): it
holds either nothing, the id-word count of a ref (`uint16` saved by
the `ettNewRef`/`ettNewerRef` header), or the pending map key. -/
inductive Scratch where
  | empty
  | len (l : Nat)
  | key (t : Term)
deriving BEq, Repr

/-- Decoder stack frame, `stackElement` from the source.  The parent
link is represented by the position in a `List Frame` stack. -/
structure Frame where
  termType : Nat
  term : Term
  i : Nat
  children : Nat
  tmp : Scratch
deriving BEq, Repr

/-- Go map assignment `m[k] = v` on the association-list model of an
ETF map: overwrite the entry whose key compares equal, otherwise
append. -/
def mapInsert (kvs : List (Term × Term)) (k v : Term) : List (Term × Term) :=
  if kvs.any (fun p => p.1 == k) then
    kvs.map (fun p => if p.1 == k then (k, v) else p)
  else
    kvs ++ [(k, v)]

/-- Read `n` big-endian 32-bit words (the ref id words). -/
def readU32s : Nat → List Nat → List Nat
  | 0, _ => []
  | n + 1, b0 :: b1 :: b2 :: b3 :: rest => be32 b0 b1 b2 b3 :: readU32s n rest
  | _ + 1, _ => []

/-- Stage 1 of `Decode` (`src/etf/read.go` lines 87-410): decode one
tag and its immediate payload.  `t` is the tag byte already consumed
and `packet` the bytes after it.  On success returns the produced
term, the remaining bytes, and the stack frame to push when the tag
introduces children (`child` in the source).  Each branch reproduces
the source's checks and reads in order; a read the Go runtime would
refuse (index or slice out of bounds) yields `panicked`. -/
def stage1 (cache : List String) (t : Nat) (packet : List Nat) :
    Except DecodeErr (Term × List Nat × Option Frame) :=
  if t = ettAtomUTF8 ∨ t = ettAtom then
    match packet with
    | b0 :: b1 :: rest =>
      -- n is uint16, so the source's n+2 wraps at 65534/65535 and the
      -- slice packet[2:n+2] then panics with inverted bounds
      let n2 := (be16 b0 b1 + 2) % 65536
      if packet.length < n2 then .error .malformedAtomUTF8
      else if n2 < 2 then .error .panicked
      else .ok (.atom (bytesToStr (rest.take (n2 - 2))), packet.drop n2, none)
    | _ => .error .malformedAtomUTF8
  else if t = ettSmallAtomUTF8 ∨ t = ettSmallAtom then
    match packet with
    | n :: rest =>
      if packet.length < n + 1 then .error .malformedSmallAtomUTF8
      else .ok (.atom (bytesToStr (rest.take n)), packet.drop (n + 1), none)
    | [] => .error .malformedSmallAtomUTF8
  else if t = ettString then
    match packet with
    | b0 :: b1 :: rest =>
      -- same uint16 wrap as the atom case
      let n2 := (be16 b0 b1 + 2) % 65536
      if packet.length < n2 then .error .malformedString
      else if n2 < 2 then .error .panicked
      else .ok (.str (bytesToStr (rest.take (n2 - 2))), packet.drop n2, none)
    | _ => .error .malformedString
  else if t = ettCacheRef then
    match packet with
    | idx :: rest =>
      match cache.get? idx with
      | some a => .ok (.atom a, rest, none)
      | none => .error .panicked
    | [] => .error .malformedCacheRef
  else if t = ettNewFloat then
    match packet with
    | b0 :: b1 :: b2 :: b3 :: b4 :: b5 :: b6 :: b7 :: rest =>
      .ok (.float (be64 b0 b1 b2 b3 b4 b5 b6 b7), rest, none)
    | _ => .error .malformedNewFloat
  else if t = ettSmallInteger then
    match packet with
    | b :: rest => .ok (.int b, rest, none)
    | [] => .error .malformedSmallInteger
  else if t = ettInteger then
    match packet with
    | b0 :: b1 :: b2 :: b3 :: rest =>
      .ok (.int64 (toSigned32 (be32 b0 b1 b2 b3)), rest, none)
    | _ => .error .malformedInteger
  else if t = ettSmallBig then
    match packet with
    | [] => .error .malformedSmallBig
    | [_] => .error .panicked
    | n :: s :: rest =>
      let negative := s = 1
      if n < 8 then
        if packet.length < n + 2 then .error .panicked
        else
          let v := leNat (rest.take n)
          let smallBig := if negative then (18446744073709551616 - v) % 18446744073709551616 else v
          .ok (.int64 (toSigned64 smallBig), packet.drop (n + 2), none)
      else
        -- n is a byte, so the source's int(n+2) and packet[2:n+2] use
        -- uint8 arithmetic: for n = 254/255 the bound wraps to 0/1 and
        -- the slice panics with inverted bounds
        let n2 := (n + 2) % 256
        if packet.length < n2 then .error .malformedSmallBig
        else if n2 < 2 then .error .panicked
        else
          let v : Int := leNat (rest.take (n2 - 2))
          let bi : Int := if negative then -v else v
          if bi < biggestInt ∧ lowestInt < bi then
            .ok (.int64 bi, packet.drop n2, none)
          else
            .ok (.bigInt bi, packet.drop n2, none)
  else if t = ettLargeBig then
    if packet.length < 256 then .error .malformedLargeBig
    else
      match packet with
      | b0 :: b1 :: b2 :: b3 :: s :: rest =>
        -- n is uint32, so the source's int(n+5) and packet[5:n+5] wrap
        -- for n ≥ 2^32−5 and the slice panics with inverted bounds
        let n5 := (be32 b0 b1 b2 b3 + 5) % 4294967296
        let negative := s = 1
        if packet.length < n5 then .error .malformedLargeBig
        else if n5 < 5 then .error .panicked
        else
          let v : Int := leNat (rest.take (n5 - 5))
          let bi : Int := if negative then -v else v
          .ok (.bigInt bi, packet.drop n5, none)
      | _ => .error .malformedLargeBig
  else if t = ettList then
    match packet with
    | b0 :: b1 :: b2 :: b3 :: _ =>
      let n := be32 b0 b1 b2 b3
      if n = 0 then .error .malformedList
      else
        let tm := Term.list (List.replicate (n + 1) .undef)
        .ok (tm, packet.drop 4,
          some {termType := ettList, term := tm, i := 0, children := n + 1, tmp := .empty})
    | _ => .error .malformedList
  else if t = ettSmallTuple then
    match packet with
    | n :: rest =>
      let tm := Term.tuple (List.replicate n .undef)
      if n = 0 then .ok (tm, rest, none)
      else
        .ok (tm, rest,
          some {termType := ettSmallTuple, term := tm, i := 0, children := n, tmp := .empty})
    | [] => .error .malformedSmallTuple
  else if t = ettLargeTuple then
    match packet with
    | b0 :: b1 :: b2 :: b3 :: rest =>
      let n := be32 b0 b1 b2 b3
      let tm := Term.tuple (List.replicate n .undef)
      if n = 0 then .ok (tm, rest, none)
      else
        .ok (tm, rest,
          some {termType := ettLargeTuple, term := tm, i := 0, children := n, tmp := .empty})
    | _ => .error .malformedLargeTuple
  else if t = ettMap then
    match packet with
    | b0 :: b1 :: b2 :: b3 :: rest =>
      let n := be32 b0 b1 b2 b3
      let tm := Term.mp []
      if n = 0 then .ok (tm, rest, none)
      else
        .ok (tm, rest,
          some {termType := ettMap, term := tm, i := 0, children := n * 2, tmp := .empty})
    | _ => .error .malformedMap
  else if t = ettBinary then
    match packet with
    | b0 :: b1 :: b2 :: b3 :: rest =>
      -- n is uint32, so the source's int(n+4) and packet[4:n+4] wrap
      -- for n ≥ 2^32−4 and the copy's source slice panics
      let n4 := (be32 b0 b1 b2 b3 + 4) % 4294967296
      if packet.length < n4 then .error .malformedBinary
      else if n4 < 4 then .error .panicked
      else .ok (.binary (rest.take (n4 - 4)), packet.drop n4, none)
    | _ => .error .malformedBinary
  else if t = ettNil then
    .ok (.list [], packet, none)
  else if t = ettPid ∨ t = ettNewPid then
    .ok (.undef, packet,
      some {termType := t, term := .undef, i := 0, children := 1, tmp := .empty})
  else if t = ettNewRef ∨ t = ettNewerRef then
    match packet with
    | b0 :: b1 :: rest =>
      .ok (.undef, rest,
        some {termType := t, term := .undef, i := 0, children := 1, tmp := .len (be16 b0 b1)})
    | _ => .error .malformedRef
  else if t = ettNewFun then
    if packet.length < 32 then .error .malformedFun
    else
      let arity := packet.getD 4 0
      let uniq := (packet.drop 5).take 16
      let index := be32 (packet.getD 21 0) (packet.getD 22 0) (packet.getD 23 0) (packet.getD 24 0)
      let l := be32 (packet.getD 25 0) (packet.getD 26 0) (packet.getD 27 0) (packet.getD 28 0)
      let fn := Term.funT arity uniq index 0 0 ""
        {node := "", id := 0, serial := 0, creation := 0} (List.replicate l .undef)
      .ok (fn, packet.drop 29,
        some {termType := ettNewFun, term := fn, i := 0, children := 4 + l, tmp := .empty})
  else if t = ettPort ∨ t = ettNewPort then
    .ok (.undef, packet,
      some {termType := t, term := .undef, i := 0, children := 1, tmp := .empty})
  else if t = ettBitBinary then
    match packet with
    | b0 :: b1 :: b2 :: b3 :: bits :: rest =>
      if packet.length < 6 then .error .malformedBitBinary
      else
        let n := be32 b0 b1 b2 b3
        -- the copy's source slice packet[5:n+5] wraps in uint32 for
        -- n ≥ 2^32−5 and panics with inverted bounds
        let n5 := (n + 5) % 4294967296
        if n = 0 then .error .panicked
        else if n5 < 5 then .error .panicked
        else if packet.length < n5 then .error .panicked
        else
          let b := rest.take (n5 - 5)
          let lastByte := b.getD (n - 1) 0
          let shifted := if bits ≤ 8 then lastByte / 2 ^ (8 - bits) else 0
          .ok (.binary (b.take (n - 1) ++ [shifted]), packet.drop n5, none)
    | _ => .error .malformedBitBinary
  else
    .error .malformedUnknownType

/-- Stage 2 of `Decode` (`src/etf/read.go` lines 424-647): place the
just-decoded term `term` (whose tag byte was `t`) into the stack
frame `fr`, reading any trailing fixed-size fields of
Pid/Ref/Port/Fun frames from `packet`.  Returns the updated frame
and remaining bytes.  Frames are built only by `stage1`, so the Go
type assertions on `fr.term`/`fr.tmp` cannot fail; their impossible
branches map to `internal` (the source's `ErrInternal` default). -/
def placeOne (t : Nat) (term : Term) (packet : List Nat) (fr : Frame) :
    Except DecodeErr (Frame × List Nat) :=
  if fr.termType = ettList then
    match fr.term with
    | .list ts =>
      let ts' := ts.set fr.i term
      let i' := fr.i + 1
      -- remove the last element for a proper list: the source tests the
      -- tag variable `t`, which is the tag of the last decoded leaf
      let tm := if i' = fr.children ∧ t = ettNil then Term.list (ts'.take (i' - 1))
        else Term.list ts'
      .ok ({fr with term := tm, i := i'}, packet)
    | _ => .error .internal
  else if fr.termType = ettSmallTuple ∨ fr.termType = ettLargeTuple then
    match fr.term with
    | .tuple ts => .ok ({fr with term := .tuple (ts.set fr.i term), i := fr.i + 1}, packet)
    | _ => .error .internal
  else if fr.termType = ettMap then
    match fr.term with
    | .mp kvs =>
      if fr.i % 2 = 1 then
        match fr.tmp with
        | .key k => .ok ({fr with term := .mp (mapInsert kvs k term), i := fr.i + 1}, packet)
        | _ => .error .internal
      else
        .ok ({fr with tmp := .key term, i := fr.i + 1}, packet)
    | _ => .error .internal
  else if fr.termType = ettPid then
    match packet with
    | b0 :: b1 :: b2 :: b3 :: b4 :: b5 :: b6 :: b7 :: b8 :: rest =>
      match term with
      | .atom name =>
        let pid : Pid :=
          { node := name
            id := be32 b0 b1 b2 b3
            serial := be32 b4 b5 b6 b7
            creation := b8 % 4 }
        .ok ({fr with term := .pidT pid, i := fr.i + 1}, rest)
      | _ => .error .malformedPid
    | _ => .error .malformedPid
  else if fr.termType = ettNewPid then
    match packet with
    | b0 :: b1 :: b2 :: b3 :: b4 :: b5 :: b6 :: b7 :: _ :: _ :: _ :: b11 :: rest =>
      match term with
      | .atom name =>
        let pid : Pid :=
          { node := name
            id := be32 b0 b1 b2 b3
            serial := be32 b4 b5 b6 b7
            creation := b11 }
        .ok ({fr with term := .pidT pid, i := fr.i + 1}, rest)
      | _ => .error .malformedPid
    | _ => .error .malformedNewPid
  else if fr.termType = ettNewRef then
    match term with
    | .atom name =>
      match fr.tmp with
      | .len l =>
        if packet.length < 1 + l * 4 then .error .malformedRef
        else
          let creation := packet.getD 0 0
          let ids := readU32s l (packet.drop 1)
          let fr' := {fr with term := Term.refT name ids creation, i := fr.i + 1, tmp := Scratch.empty}
          .ok (fr', packet.drop (1 + l * 4))
      | _ => .error .internal
    | _ => .error .malformedRef
  else if fr.termType = ettNewerRef then
    match term with
    | .atom name =>
      match fr.tmp with
      | .len l =>
        if packet.length < 4 + l * 4 then .error .malformedRef
        else
          let creation := packet.getD 3 0
          let ids := readU32s l (packet.drop 4)
          let fr' := {fr with term := Term.refT name ids creation, i := fr.i + 1, tmp := Scratch.empty}
          .ok (fr', packet.drop (4 + l * 4))
      | _ => .error .internal
    | _ => .error .malformedRef
  else if fr.termType = ettPort then
    match packet with
    | b0 :: b1 :: b2 :: b3 :: b4 :: rest =>
      match term with
      | .atom name =>
        .ok ({fr with term := .portT name (be32 b0 b1 b2 b3) b4, i := fr.i + 1}, rest)
      | _ => .error .malformedPort
    | _ => .error .malformedPort
  else if fr.termType = ettNewPort then
    match packet with
    | b0 :: b1 :: b2 :: b3 :: _ :: _ :: _ :: b7 :: rest =>
      match term with
      | .atom name =>
        .ok ({fr with term := .portT name (be32 b0 b1 b2 b3) b7, i := fr.i + 1}, rest)
      | _ => .error .malformedNewPort
    | _ => .error .malformedNewPort
  else if fr.termType = ettNewFun then
    match fr.term with
    | .funT arity uniq index oldIndex oldUnique modName pid freeVars =>
      match fr.i with
      | 0 =>
        match term with
        | .atom m =>
          let tm := Term.funT arity uniq index oldIndex oldUnique m pid freeVars
          .ok ({fr with term := tm, i := 1}, packet)
        | _ => .error .malformedFun
      | 1 =>
        match term with
        | .int v =>
          let tm := Term.funT arity uniq index v oldUnique modName pid freeVars
          .ok ({fr with term := tm, i := 2}, packet)
        | _ => .error .malformedFun
      | 2 =>
        match term with
        | .int64 v =>
          let tm := Term.funT arity uniq index oldIndex (u32ofInt v) modName pid freeVars
          .ok ({fr with term := tm, i := 3}, packet)
        | _ => .error .malformedFun
      | 3 =>
        match term with
        | .pidT p =>
          let tm := Term.funT arity uniq index oldIndex oldUnique modName p freeVars
          .ok ({fr with term := tm, i := 4}, packet)
        | _ => .error .malformedFun
      | j + 4 =>
        if freeVars.length < j + 1 then .error .malformedFun
        else
          let tm := Term.funT arity uniq index oldIndex oldUnique modName pid (freeVars.set j term)
          .ok ({fr with term := tm, i := fr.i + 1}, packet)
    | _ => .error .internal
  else
    .error .internal

/-- Result of placing a term into the stack: either the root frame
has completed (the main loop's `break`), or decoding continues with
the given stack. -/
inductive PlaceResult where
  | done (term : Term) (packet : List Nat)
  | more (packet : List Nat) (stack : List Frame)

/-- The `processStack` loop of `Decode`, including stage 3 (the
`goto processStack` that pops a completed frame and places its term
into the parent).  The empty-stack case corresponds to the main
loop's `break` for a stand-alone term or a completed root frame.
Note that `t` is not updated while popping: a completed composite is
placed into its parent with the tag of the last decoded leaf. -/
def placeLoop (t : Nat) (term : Term) (packet : List Nat) :
    List Frame → Except DecodeErr PlaceResult
  | [] => .ok (.done term packet)
  | fr :: rest =>
    match placeOne t term packet fr with
    | .error e => .error e
    | .ok (fr', packet') =>
      if fr'.i < fr'.children then .ok (.more packet' (fr' :: rest))
      else placeLoop t fr'.term packet' rest

/-- The main decode loop of `src/etf/read.go` (lines 72-669).  Each
iteration consumes one tag byte, so `fuel` bounds the number of
iterations; `Decode` supplies `packet.length + 1`, which can never
be exhausted (running out would yield `internal`). -/
def decodeLoop (cache : List String) : Nat → List Nat → List Frame →
    Except DecodeErr (Term × List Nat)
  | 0, _, _ => .error .internal
  | _ + 1, [], _ => .error .malformed
  | fuel + 1, t :: rest, stack =>
    match stage1 cache t rest with
    | .error e => .error e
    | .ok (term, packet', child) =>
      match child with
      | some fr => decodeLoop cache fuel packet' (fr :: stack)
      | none =>
        match placeLoop t term packet' stack with
        | .error e => .error e
        | .ok (.done tm pk) => .ok (tm, pk)
        | .ok (.more pk st') => decodeLoop cache fuel pk st'

/-- The decoder entry point `Decode(packet, cache)`: run the loop,
then enforce strict packet framing (`ErrMalformedPacketLength` when
bytes remain). -/
def Decode (packet : List Nat) (cache : List String) : Except DecodeErr Term :=
  match decodeLoop cache (packet.length + 1) packet [] with
  | .error e => .error e
  | .ok (tm, rest) => if rest.length > 0 then .error .malformedPacketLength else .ok tm

/-! ### Registrar (`src/registrar.go`)

The registrar is a single goroutine selecting over request channels;
its handling of one request is embedded as the pure transition
`regStep` on the table state, plus a list of side effects (channel
sends and collaborator calls).  Channel capacities and blocking are
concurrency aspects outside the state model; a send is recorded as
an effect.  The Go runtime panics reachable from request handling
(nil `*Process` dereference, failed interface type assertion, tuple
index out of range) are explicit error values. -/

/-- Constant `startPID` from the source. -/
def startPID : Nat := 1000

/-- Go `uint32` increment with wrap-around. -/
def u32succ (n : Nat) : Nat := (n + 1) % 4294967296

/-- Association-list lookup modelling Go map indexing. -/
def alookup {α β : Type} [DecidableEq α] : List (α × β) → α → Option β
  | [], _ => none
  | (k, v) :: rest, a => if a = k then some v else alookup rest a

/-- Association-list key removal modelling Go `delete`. -/
def aerase {α β : Type} [DecidableEq α] : List (α × β) → α → List (α × β)
  | [], _ => []
  | (k, v) :: rest, a => if k = a then aerase rest a else (k, v) :: aerase rest a

/-- Association-list insertion modelling Go map assignment. -/
def ainsert {α β : Type} [DecidableEq α] (l : List (α × β)) (a : α) (b : β) : List (α × β) :=
  (a, b) :: aerase l a

/-- A local process handle as the registrar sees it: its PID, its
registered name (empty string when unnamed), and the contents of its
mailbox channel (a list of `{from, message}` tuples in send order;
the channel's bound is a capacity, not a state, and is omitted). -/
structure ProcessH where
  self : Pid
  name : String
  mailBox : List Term
deriving BEq, Repr

/-- The registrar's mutable state: `nextPID`, node name, creation,
and the three tables.  The `peers` table's values (outbound channel
handles) are irrelevant to every claim, so only the key set is kept;
a send on a peer channel is recorded as a `peerSend` effect. -/
structure RegState where
  nextPID : Nat
  nodeName : String
  creation : Nat
  names : List (String × Pid)
  processes : List (Pid × ProcessH)
  peers : List String
deriving BEq, Repr

/-- Function `createRegistrar`: the initial table state (the spawned loop is
modelled by `regStep`/`regRun`). -/
def initRegistrar (nodeName : String) : RegState :=
  { nextPID := startPID
    nodeName := nodeName
    creation := 1
    names := []
    processes := []
    peers := [] }

/-- Function `createNewPID`: increment `nextPID` (uint32) and build the PID
from the new value with `Serial = 1` and the registrar's creation. -/
def createNewPID (st : RegState) : RegState × Pid :=
  let next := u32succ st.nextPID
  ({st with nextPID := next},
    {node := st.nodeName, id := next, serial := 1, creation := st.creation})

/-- One request to the registrar loop, the sum of its request
channels.  `routeByName`/`routeByTuple` requests carry the payloads
of their channel structs; process-registration options only affect
the mailbox capacity and are omitted. -/
inductive Request where
  | registerProcess (name : String)
  | unregisterProcess (pid : Pid)
  | registerName (name : String) (pid : Pid)
  | unregisterName (name : String)
  | registerPeer (name : String)
  | unregisterPeer (name : String)
  | routeByPid (sender : Pid) (pid : Pid) (message : Term) (retries : Nat)
  | routeByName (sender : Pid) (name : String) (message : Term)
  | routeByTuple (sender : Pid) (tup : List Term) (message : Term) (retries : Nat)
deriving BEq, Repr

/-- Observable side effects of one loop iteration: the reply-channel
send of `RegisterProcess`, re-enqueues of route requests onto their
own channels, `node.connect` calls, and peer-channel frame sends. -/
inductive Effect where
  | reply (p : ProcessH)
  | requeuePid (sender : Pid) (pid : Pid) (message : Term) (retries : Nat)
  | requeueName (sender : Pid) (name : String) (message : Term)
  | requeueTuple (sender : Pid) (tup : List Term) (message : Term) (retries : Nat)
  | connect (node : String)
  | peerSend (node : String) (frame : List Term)
deriving BEq, Repr

/-- Go runtime panics reachable from the registrar loop. -/
inductive RegPanic where
  | nilProcessDeref
  | badTypeAssert
  | indexOutOfRange
deriving DecidableEq, Repr

/-- The `SEND` distribution control tag.  Modelled from the spec: the
constant is defined outside `src/`; §6 fixes it as the standard
Erlang distribution `SEND` control message tag, which is 2. -/
def SEND : Term := Term.int64 2

/-- The `REG_SEND` distribution control tag.  Modelled from the spec,
like `SEND`; the standard value is 6. -/
def REG_SEND : Term := Term.int64 6

/-- Method `Tuple.Element(n)` from the etf package (1-indexed element
access; out of range panics). -/
def tupleElement (ts : List Term) (n : Nat) : Option Term := ts.get? (n - 1)

/-- One iteration of `registrar.run` (`src/registrar.go` lines
118-277) on a single request: the new table state and the effects
emitted, or the Go panic the iteration runs into.  Each branch
mirrors the corresponding `case` of the source's `select`. -/
def regStep (st : RegState) (req : Request) : Except RegPanic (RegState × List Effect) :=
  match req with
  | .registerProcess name =>
    let (st1, pid) := createNewPID st
    let proc : ProcessH := {self := pid, name := name, mailBox := []}
    let processes1 := ainsert st1.processes pid proc
    let names1 := if name ≠ "" then ainsert st1.names name pid else st1.names
    -- reply <- process, then the loop body's second r.nextPID++
    .ok ({st1 with processes := processes1, names := names1, nextPID := u32succ st1.nextPID},
      [.reply proc])
  | .unregisterProcess up =>
    match alookup st.processes up with
    | some p =>
      let processes1 := aerase st.processes up
      let names1 := if p.name ≠ "" then aerase st.names p.name else st.names
      .ok ({st with processes := processes1, names := names1}, [])
    | none => .ok (st, [])
  | .registerName name pid =>
    match alookup st.names name with
    | some _ => .ok (st, [])
    | none => .ok ({st with names := ainsert st.names name pid}, [])
  | .unregisterName name =>
    .ok ({st with names := aerase st.names name}, [])
  | .registerPeer name =>
    -- the peer handle itself is untracked; only key membership matters
    if st.peers.contains name then .ok (st, [])
    else .ok ({st with peers := name :: st.peers}, [])
  | .unregisterPeer _ =>
    -- TODO in the source: no effect
    .ok (st, [])
  | .routeByPid sender pid message retries =>
    if retries > 2 then
      -- drop this message after 3 attempts
      .ok (st, [])
    else if pid.node = st.nodeName then
      -- local route: the source indexes the map without an ok-check
      -- and sends on p.mailBox; a missing PID gives a nil pointer
      match alookup st.processes pid with
      | none => .error .nilProcessDeref
      | some p =>
        let p1 := {p with mailBox := p.mailBox ++ [Term.tuple [Term.pidT sender, message]]}
        .ok ({st with processes := ainsert st.processes pid p1}, [])
    else if st.peers.contains pid.node then
      .ok (st, [.peerSend pid.node [Term.tuple [SEND, Term.atom "", Term.pidT pid], message]])
    else
      .ok (st, [.requeuePid sender pid message (retries + 1), .connect pid.node])
  | .routeByName sender name message =>
    match alookup st.names name with
    | some pid =>
      -- r.route with a Pid destination enqueues a routeByPid request
      -- whose retries field is the zero value
      .ok (st, [.requeuePid sender pid message 0])
    | none => .ok (st, [])
  | .routeByTuple sender tup message retries =>
    if retries > 2 then .ok (st, [])
    else
      match tupleElement tup 2 with
      | none => .error .indexOutOfRange
      | some e2 =>
        match e2 with
        | .str toNode =>
          match tupleElement tup 1 with
          | none => .error .indexOutOfRange
          | some e1 =>
            match e1 with
            | .str toName =>
              if toNode = st.nodeName then
                -- r.route with a string destination enqueues routeByName
                .ok (st, [.requeueName sender toName message])
              else if st.peers.contains toNode then
                .ok (st, [.peerSend toNode
                  [Term.tuple [REG_SEND, Term.pidT sender, Term.atom "", Term.str toName],
                    message]])
              else
                .ok (st, [.requeueTuple sender tup message (retries + 1), .connect toNode])
            | _ => .error .badTypeAssert
        | _ => .error .badTypeAssert

/-- A finite interleaving of requests processed by the registrar
loop.  A panicking iteration kills the goroutine: the state at the
panic is final and later requests are not processed. -/
def regRun (st : RegState) : List Request → RegState
  | [] => st
  | r :: rs =>
    match regStep st r with
    | .error _ => st
    | .ok (st1, _) => regRun st1 rs

/-! ### Application supervision loop (`src/application.go`)

Only the child-EXIT handling of `Application.loop` (lines 107-155)
and `stopChildren` (lines 157-164) are claim-relevant.  A started
child is represented by its PID (the source stores `*Process`
handles; `startChildren` only keeps non-nil ones). -/

/-- Constant `ApplicationStrategyPermanent`. -/
def strategyPermanent : String := "permanent"

/-- Constant `ApplicationStrategyTransient`. -/
def strategyTransient : String := "transient"

/-- Constant `ApplicationStrategyTemporary`. -/
def strategyTemporary : String := "temporary"

/-- An action the EXIT handler performs on the outside world:
delivering an exit signal to a child, or `p.Node.Stop()`. -/
inductive AppAction where
  | exitChild (pid : Pid) (reason : String)
  | nodeStop
deriving DecidableEq, Repr

/-- What the loop does after handling the message: keep supervising
or return the given reason string. -/
inductive LoopOutcome where
  | continueLoop
  | ret (reason : String)
deriving DecidableEq, Repr

/-- Go panics reachable from the EXIT handler: every strategy's
`Printf` calls `terminatedProcess.Name()`, and `terminatedProcess`
is nil when the terminated PID is not among the children. -/
inductive AppPanic where
  | nilProcessName
deriving DecidableEq, Repr

/-- Function `Application.stopChildren`: deliver `Exit(from, reason)` to every
started child whose PID differs from `from`. -/
def stopChildren (fromPid : Pid) (children : List Pid) (reason : String) : List AppAction :=
  children.filterMap (fun c => if c ≠ fromPid then some (.exitChild c reason) else none)

/-- The `{"EXIT", Pid, Reason}` branch of `Application.loop`: given
the strategy, the started children, the terminated PID and the exit
reason, the actions performed and whether the loop continues or
returns.  An unknown strategy string falls through the `switch` and
continues.  The `Printf` nil dereference (see `AppPanic`) is
modelled; in the source, `stopChildren` runs before the `Printf`, so
in the panic case some exits may already have been delivered. -/
def handleChildExit (strategy : String) (children : List Pid) (terminated : Pid)
    (reason : String) : Except AppPanic (List AppAction × LoopOutcome) :=
  let found := children.contains terminated
  if strategy = strategyPermanent then
    if found then
      .ok (stopChildren terminated children reason ++ [.nodeStop], .ret "shutdown")
    else .error .nilProcessName
  else if strategy = strategyTransient then
    if reason = "normal" ∨ reason = "shutdown" then
      if found then .ok ([], .continueLoop) else .error .nilProcessName
    else
      if found then
        .ok (stopChildren terminated children "normal" ++ [.nodeStop], .ret reason)
      else .error .nilProcessName
  else if strategy = strategyTemporary then
    if found then .ok ([], .continueLoop) else .error .nilProcessName
  else
    .ok ([], .continueLoop)

/-! ## Helper lemmas and drivers used by the claim theorems -/

theorem alookup_ainsert_self {α β : Type} [DecidableEq α] (l : List (α × β)) (a : α) (b : β) :
    alookup (ainsert l a b) a = some b := by
  simp [ainsert, alookup]

theorem alookup_aerase_self {α β : Type} [DecidableEq α] (l : List (α × β)) (a : α) :
    alookup (aerase l a) a = none := by
  induction l with
  | nil => rfl
  | cons kv l ih =>
    obtain ⟨k, v⟩ := kv
    by_cases h : k = a
    · simp [aerase, h, ih]
    · simp [aerase, alookup, h, Ne.symm h, ih]

theorem alookup_aerase_ne {α β : Type} [DecidableEq α] (l : List (α × β)) (a k : α)
    (h : k ≠ a) : alookup (aerase l a) k = alookup l k := by
  induction l with
  | nil => rfl
  | cons kv l ih =>
    obtain ⟨k', v⟩ := kv
    by_cases h2 : k' = a
    · subst h2
      simp [aerase, alookup, h, ih]
    · by_cases h3 : k = k' <;> simp [aerase, alookup, h2, h3, ih]

theorem alookup_ainsert_ne {α β : Type} [DecidableEq α] (l : List (α × β)) (a k : α) (b : β)
    (h : k ≠ a) : alookup (ainsert l a b) k = alookup l k := by
  simp [ainsert, alookup, h, alookup_aerase_ne l a k h]

theorem alookup_aerase_some {α β : Type} [DecidableEq α] {l : List (α × β)} {a k : α} {v : β}
    (h : alookup (aerase l a) k = some v) : alookup l k = some v ∧ k ≠ a := by
  by_cases hk : k = a
  · subst hk
    rw [alookup_aerase_self] at h
    exact absurd h (by simp)
  · rw [alookup_aerase_ne l a k hk] at h
    exact ⟨h, hk⟩

/-- Invariant carried through the registrar loop: every entry of
`names` has a non-empty key and points at a live process carrying
that name. -/
def NamesOK (st : RegState) : Prop :=
  ∀ n p, alookup st.names n = some p →
    n ≠ "" ∧ ∃ pr, alookup st.processes p = some pr ∧ pr.name = n

/-- Invariant carried through the registrar loop: every registered
PID was allocated by the counter, so its id is at most `nextPID`. -/
def PidsBounded (st : RegState) : Prop :=
  ∀ p pr, alookup st.processes p = some pr → p.id ≤ st.nextPID

/-- Whether a request is a RegisterName request. -/
def isRegName : Request → Bool
  | .registerName _ _ => true
  | _ => false

/-- Number of RegisterProcess requests in an interleaving. -/
def countRP : List Request → Nat
  | [] => 0
  | .registerProcess _ :: rs => countRP rs + 1
  | _ :: rs => countRP rs

/-- How much one request advances `nextPID` (absent wrap-around). -/
def rpBump : Request → Nat
  | .registerProcess _ => 2
  | _ => 0

theorem regStep_preserves (st : RegState) (req : Request)
    (hN : NamesOK st) (hB : PidsBounded st)
    (hwrap : st.nextPID + 2 < 4294967296)
    (hnot : isRegName req = false)
    (st1 : RegState) (effs : List Effect)
    (hstep : regStep st req = .ok (st1, effs)) :
    NamesOK st1 ∧ PidsBounded st1 ∧ st1.nextPID = st.nextPID + rpBump req := by
  cases req with
  | registerProcess name =>
    have h1 : u32succ st.nextPID = st.nextPID + 1 := by
      unfold u32succ
      exact Nat.mod_eq_of_lt (by omega)
    have h2 : u32succ (st.nextPID + 1) = st.nextPID + 2 := by
      unfold u32succ
      exact Nat.mod_eq_of_lt (by omega)
    simp only [regStep, createNewPID, h1, h2, Except.ok.injEq, Prod.mk.injEq] at hstep
    obtain ⟨hst1, _⟩ := hstep
    subst hst1
    set pid : Pid :=
      {node := st.nodeName, id := st.nextPID + 1, serial := 1, creation := st.creation} with hpid
    set proc : ProcessH := {self := pid, name := name, mailBox := []} with hproc
    have hfresh : ∀ p pr, alookup st.processes p = some pr → p ≠ pid := by
      intro p pr hpr he
      have := hB p pr hpr
      rw [he, hpid] at this
      simp at this
    refine ⟨?_, ?_, rfl⟩
    · intro n p hl
      by_cases hname : name = ""
      · simp only [hname] at hl
        simp at hl
        obtain ⟨hne, pr, hpr, hprname⟩ := hN n p hl
        refine ⟨hne, pr, ?_, hprname⟩
        rw [alookup_ainsert_ne _ _ _ _ (hfresh p pr hpr)]
        exact hpr
      · simp only [if_pos (by simpa using hname)] at hl
        by_cases hn : n = name
        · subst hn
          rw [alookup_ainsert_self] at hl
          obtain rfl : pid = p := by simpa using hl
          exact ⟨hname, proc, alookup_ainsert_self _ _ _, rfl⟩
        · rw [alookup_ainsert_ne _ _ _ _ hn] at hl
          obtain ⟨hne, pr, hpr, hprname⟩ := hN n p hl
          refine ⟨hne, pr, ?_, hprname⟩
          rw [alookup_ainsert_ne _ _ _ _ (hfresh p pr hpr)]
          exact hpr
    · intro p pr hpr
      by_cases hp : p = pid
      · subst hp
        rw [hpid]
        simp [rpBump]
      · rw [alookup_ainsert_ne _ _ _ _ hp] at hpr
        have := hB p pr hpr
        simp [rpBump]
        omega
  | unregisterProcess up =>
    cases hfind : alookup st.processes up with
    | none =>
      simp only [regStep, hfind, Except.ok.injEq, Prod.mk.injEq] at hstep
      obtain ⟨hst1, _⟩ := hstep
      subst hst1
      exact ⟨hN, hB, by simp [rpBump]⟩
    | some p =>
      simp only [regStep, hfind, Except.ok.injEq, Prod.mk.injEq] at hstep
      obtain ⟨hst1, _⟩ := hstep
      subst hst1
      refine ⟨?_, ?_, by simp [rpBump]⟩
      · intro n q hl
        by_cases hpn : p.name = ""
        · simp only [hpn] at hl
          simp at hl
          obtain ⟨hne, pr, hpr, hprname⟩ := hN n q hl
          have hqup : q ≠ up := by
            intro he
            rw [he, hfind] at hpr
            obtain rfl : p = pr := by simpa using hpr
            exact hne (hprname ▸ hpn ▸ rfl)
          refine ⟨hne, pr, ?_, hprname⟩
          rw [alookup_aerase_ne _ _ _ hqup]
          exact hpr
        · simp only [if_pos (by simpa using hpn)] at hl
          obtain ⟨hl, hnname⟩ := alookup_aerase_some hl
          obtain ⟨hne, pr, hpr, hprname⟩ := hN n q hl
          have hqup : q ≠ up := by
            intro he
            rw [he, hfind] at hpr
            obtain rfl : p = pr := by simpa using hpr
            exact hnname hprname.symm
          refine ⟨hne, pr, ?_, hprname⟩
          rw [alookup_aerase_ne _ _ _ hqup]
          exact hpr
      · intro q pr hpr
        obtain ⟨hpr, _⟩ := alookup_aerase_some hpr
        exact hB q pr hpr
  | registerName name pid =>
    simp [isRegName] at hnot
  | unregisterName name =>
    simp only [regStep, Except.ok.injEq, Prod.mk.injEq] at hstep
    obtain ⟨hst1, _⟩ := hstep
    subst hst1
    refine ⟨?_, ?_, by simp [rpBump]⟩
    · intro n q hl
      obtain ⟨hl, _⟩ := alookup_aerase_some hl
      exact hN n q hl
    · exact hB
  | registerPeer name =>
    simp only [regStep] at hstep
    split at hstep <;>
    · simp only [Except.ok.injEq, Prod.mk.injEq] at hstep
      obtain ⟨hst1, _⟩ := hstep
      subst hst1
      exact ⟨hN, hB, by simp [rpBump]⟩
  | unregisterPeer name =>
    simp only [regStep, Except.ok.injEq, Prod.mk.injEq] at hstep
    obtain ⟨hst1, _⟩ := hstep
    subst hst1
    exact ⟨hN, hB, by simp [rpBump]⟩
  | routeByPid sender pid msg retries =>
    simp only [regStep] at hstep
    split at hstep
    · simp only [Except.ok.injEq, Prod.mk.injEq] at hstep
      obtain ⟨hst1, _⟩ := hstep
      subst hst1
      exact ⟨hN, hB, by simp [rpBump]⟩
    · split at hstep
      · split at hstep
        · exact absurd hstep (by simp)
        · rename_i hlocal2 p hfind
          simp only [Except.ok.injEq, Prod.mk.injEq] at hstep
          obtain ⟨hst1, _⟩ := hstep
          subst hst1
          refine ⟨?_, ?_, by simp [rpBump]⟩
          · intro n q hl
            obtain ⟨hne, pr, hpr, hprname⟩ := hN n q hl
            by_cases hq : q = pid
            · subst hq
              rw [hfind] at hpr
              obtain rfl : p = pr := by simpa using hpr
              refine ⟨hne, _, alookup_ainsert_self _ _ _, hprname⟩
            · refine ⟨hne, pr, ?_, hprname⟩
              rw [alookup_ainsert_ne _ _ _ _ hq]
              exact hpr
          · intro q pr hpr
            by_cases hq : q = pid
            · subst hq
              exact hB _ _ hfind
            · rw [alookup_ainsert_ne _ _ _ _ hq] at hpr
              exact hB q pr hpr
      · split at hstep <;>
        · simp only [Except.ok.injEq, Prod.mk.injEq] at hstep
          obtain ⟨hst1, _⟩ := hstep
          subst hst1
          exact ⟨hN, hB, by simp [rpBump]⟩
  | routeByName sender name msg =>
    simp only [regStep] at hstep
    split at hstep <;>
    · simp only [Except.ok.injEq, Prod.mk.injEq] at hstep
      obtain ⟨hst1, _⟩ := hstep
      subst hst1
      exact ⟨hN, hB, by simp [rpBump]⟩
  | routeByTuple sender tup msg retries =>
    simp only [regStep] at hstep
    split at hstep
    · simp only [Except.ok.injEq, Prod.mk.injEq] at hstep
      obtain ⟨hst1, _⟩ := hstep
      subst hst1
      exact ⟨hN, hB, by simp [rpBump]⟩
    · split at hstep
      · exact absurd hstep (by simp)
      · split at hstep
        · split at hstep
          · exact absurd hstep (by simp)
          · split at hstep
            · split at hstep
              · simp only [Except.ok.injEq, Prod.mk.injEq] at hstep
                obtain ⟨hst1, _⟩ := hstep
                subst hst1
                exact ⟨hN, hB, by simp [rpBump]⟩
              · split at hstep <;>
                · simp only [Except.ok.injEq, Prod.mk.injEq] at hstep
                  obtain ⟨hst1, _⟩ := hstep
                  subst hst1
                  exact ⟨hN, hB, by simp [rpBump]⟩
            · exact absurd hstep (by simp)
        · exact absurd hstep (by simp)

theorem regRun_inv (reqs : List Request) : ∀ st : RegState,
    NamesOK st → PidsBounded st →
    st.nextPID + 2 * countRP reqs + 2 < 4294967296 →
    (∀ r ∈ reqs, isRegName r = false) →
    NamesOK (regRun st reqs) ∧ PidsBounded (regRun st reqs) := by
  induction reqs with
  | nil =>
    intro st hN hB _ _
    exact ⟨hN, hB⟩
  | cons r rs ih =>
    intro st hN hB hbound hnames
    unfold regRun
    cases hs : regStep st r with
    | error e => exact ⟨hN, hB⟩
    | ok out =>
      obtain ⟨st1, effs⟩ := out
      have hcount2 : 2 * countRP (r :: rs) = 2 * countRP rs + rpBump r := by
        cases r <;> (simp [countRP, rpBump]; try omega)
      have hwrap : st.nextPID + 2 < 4294967296 := by omega
      obtain ⟨hN1, hB1, hnext⟩ :=
        regStep_preserves st r hN hB hwrap (hnames r (List.mem_cons_self r rs)) st1 effs hs
      refine ih st1 hN1 hB1 ?_ (fun q hq => hnames q (List.mem_cons_of_mem r hq))
      omega

/-- Driver for the route-retry claim: process one `routeByPid`
request and, as long as the iteration re-enqueues the request onto
its own channel, process the re-enqueued request next (the loop
draining its own channel, no interference).  Returns the number of
loop iterations that saw the message, the number of `node.connect`
calls, and the final state; `none` on a panic or fuel exhaustion. -/
def routeDrive : Nat → RegState → Pid → Pid → Term → Nat → Option (Nat × Nat × RegState)
  | 0, _, _, _, _, _ => none
  | fuel + 1, st, sender, dest, msg, retries =>
    match regStep st (.routeByPid sender dest msg retries) with
    | .error _ => none
    | .ok (st1, effs) =>
      let conns := (effs.filter (fun e => match e with | .connect _ => true | _ => false)).length
      match effs.findSome? (fun e => match e with
        | .requeuePid s2 d2 m2 r2 => some (s2, d2, m2, r2)
        | _ => none) with
      | some (s2, d2, m2, r2) =>
        match routeDrive fuel st1 s2 d2 m2 r2 with
        | some (a, c, stf) => some (a + 1, c + conns, stf)
        | none => none
      | none => some (1, conns, st1)

/-- First effect of `reply` kind, the value `RegisterProcess` reads
from the reply channel. -/
def replyOf (effs : List Effect) : Option ProcessH :=
  effs.findSome? (fun e => match e with | .reply p => some p | _ => none)

/-- The PIDs handed back by the first two `RegisterProcess` requests
against a fresh registrar. -/
def firstTwoPids (nodeName : String) : Option (Pid × Pid) :=
  match regStep (initRegistrar nodeName) (.registerProcess "") with
  | .ok (st1, effs1) =>
    match replyOf effs1, regStep st1 (.registerProcess "") with
    | some p1, .ok (_, effs2) =>
      match replyOf effs2 with
      | some p2 => some (p1.self, p2.self)
      | _ => none
    | _, _ => none
  | .error _ => none

theorem stopChildren_eq (f : Pid) (cs : List Pid) (r : String) :
    stopChildren f cs r =
      (cs.filter (fun c => c ≠ f)).map (fun c => AppAction.exitChild c r) := by
  induction cs with
  | nil => rfl
  | cons c cs ih =>
    by_cases h : c = f
    · simp [stopChildren, List.filterMap_cons, h, List.filter_cons] at *
      exact ih
    · simp [stopChildren, List.filterMap_cons, h, List.filter_cons] at *
      exact ih

/-- Concrete child PID used by witnesses. -/
def pidA : Pid := {node := "n@h", id := 1001, serial := 1, creation := 1}

/-- Concrete child PID used by witnesses. -/
def pidB : Pid := {node := "n@h", id := 1003, serial := 1, creation := 1}

/-! ### Big-step characterisation of the decode loop

The following relation and lemmas characterise complete runs of the
iterative machine compositionally, so that claims universal over all
child terms of a composite can be stated and proved.  `stage1` and
`placeOne` only ever shorten the packet; with that, the fuel
parameter of `decodeLoop` is irrelevant once it exceeds the packet
length, and the big-step relation `Run` is sound for the machine. -/

set_option maxRecDepth 100000

/-- C1: the claim states that for every tag and every truncation
below the minimum valid length `Decode` returns the tag-specific
Malformed error, and that `Decode` never panics and never reads past
the input.  The code violates this: `ettSmallBig` reads `packet[1]`
before any length-2 check, `ettCacheRef` indexes the atom cache
without a bounds check, and `ettBitBinary` with declared length 0
indexes `b[n-1]` after a uint32 underflow.  This theorem evaluates
the decoder at three such failing inputs, each producing the
modelled Go runtime panic instead of a Malformed error. -/
theorem C1_truncation_panics :
    Decode [110, 5] [] = .error .panicked ∧
    Decode [82, 0] [] = .error .panicked ∧
    Decode [77, 0, 0, 0, 0, 4, 0] [] = .error .panicked :=
  ⟨rfl, rfl, rfl⟩

/-- C2: the claim states that a `RouteByPid` request whose
destination PID is local but absent from the processes table is
dropped silently with the state unchanged.  The code instead indexes
`r.processes[bp.pid]` without an ok-check and sends on the nil
process's mailbox: the loop iteration ends in a nil-pointer panic.
This theorem evaluates that failing branch. -/
theorem C2_local_missing_pid_panics (st : RegState) (sender dest : Pid) (msg : Term)
    (hlocal : dest.node = st.nodeName) (hmissing : alookup st.processes dest = none) :
    regStep st (.routeByPid sender dest msg 0) = .error .nilProcessDeref := by
  simp [regStep, hlocal, hmissing]

/-- Witness for C2 at a concrete registrar state and PID. -/
theorem C2_local_missing_pid_panics_w :
    regStep (initRegistrar "n@h")
      (.routeByPid {node := "n@h", id := 1, serial := 1, creation := 1}
        {node := "n@h", id := 2, serial := 1, creation := 1} (Term.atom "m") 0) =
      .error .nilProcessDeref :=
  C2_local_missing_pid_panics (initRegistrar "n@h")
    {node := "n@h", id := 1, serial := 1, creation := 1}
    {node := "n@h", id := 2, serial := 1, creation := 1} (Term.atom "m") rfl rfl

/-- C3 counterexample: the claim says the first two RegisterProcess
requests return Ids 1001 and 1002; the loop increments `nextPID`
once inside `createNewPID` and a second time after the reply, so the
second PID has Id 1003, not 1002. -/
theorem C3_second_pid_is_1003_not_1002 :
    firstTwoPids "node@localhost" =
      some ({node := "node@localhost", id := 1001, serial := 1, creation := 1},
        {node := "node@localhost", id := 1003, serial := 1, creation := 1}) ∧
    ({node := "node@localhost", id := 1003, serial := 1, creation := 1} : Pid) ≠
      {node := "node@localhost", id := 1002, serial := 1, creation := 1} :=
  ⟨rfl, by decide⟩

/-- C3 amended: starting from the default `nextPid` of 1000, the
first two RegisterProcess requests return PIDs with Id 1001 and
Id 1003 (each registration advances the counter twice), both with
Serial 1 and Creation 1. -/
theorem C3_first_two_pids (nodeName : String) :
    firstTwoPids nodeName =
      some ({node := nodeName, id := 1001, serial := 1, creation := 1},
        {node := nodeName, id := 1003, serial := 1, creation := 1}) := rfl

/-- Witness for C3 at a concrete node name. -/
theorem C3_first_two_pids_w :
    firstTwoPids "node@localhost2" =
      some ({node := "node@localhost2", id := 1001, serial := 1, creation := 1},
        {node := "node@localhost2", id := 1003, serial := 1, creation := 1}) :=
  C3_first_two_pids "node@localhost2"

/-- C4 counterexample: the claim says that after any interleaving of
registrar requests every name maps to a PID present in the processes
table; a single RegisterName request installs an arbitrary PID with
no check, leaving a name that maps to no process. -/
theorem C4_register_name_breaks_invariant :
    alookup (regRun (initRegistrar "n@h")
      [.registerName "pong" {node := "n@h", id := 1, serial := 1, creation := 1}]).names "pong" =
      some {node := "n@h", id := 1, serial := 1, creation := 1} ∧
    alookup (regRun (initRegistrar "n@h")
      [.registerName "pong" {node := "n@h", id := 1, serial := 1, creation := 1}]).processes
      {node := "n@h", id := 1, serial := 1, creation := 1} = none :=
  ⟨rfl, rfl⟩

/-- C4 amended: after any finite interleaving of registrar requests
that contains no RegisterName request and at most 2·10^9
RegisterProcess requests (so the uint32 PID counter cannot wrap),
every name present in the names table maps to a PID present in the
processes table. -/
theorem C4_names_map_into_processes (nodeName : String) (reqs : List Request)
    (hNoRegName : ∀ r ∈ reqs, isRegName r = false)
    (hCount : countRP reqs ≤ 2000000000) :
    ∀ n p, alookup (regRun (initRegistrar nodeName) reqs).names n = some p →
      ∃ pr, alookup (regRun (initRegistrar nodeName) reqs).processes p = some pr := by
  have hN0 : NamesOK (initRegistrar nodeName) := by
    intro n p h
    simp [initRegistrar, alookup] at h
  have hB0 : PidsBounded (initRegistrar nodeName) := by
    intro p pr h
    simp [initRegistrar, alookup] at h
  have hbound : (initRegistrar nodeName).nextPID + 2 * countRP reqs + 2 < 4294967296 := by
    simp only [initRegistrar, startPID]
    omega
  obtain ⟨hN, hB⟩ := regRun_inv reqs _ hN0 hB0 hbound hNoRegName
  intro n p hl
  obtain ⟨_, pr, hpr, _⟩ := hN n p hl
  exact ⟨pr, hpr⟩

/-- Witness for C4 at a concrete one-request interleaving. -/
theorem C4_names_map_into_processes_w :
    ∃ pr, alookup (regRun (initRegistrar "n@h") [.registerProcess "alice"]).processes
      {node := "n@h", id := 1001, serial := 1, creation := 1} = some pr :=
  C4_names_map_into_processes "n@h" [.registerProcess "alice"]
    (by intro r hr; rcases List.mem_singleton.mp hr with rfl; rfl) (by decide) "alice"
    {node := "n@h", id := 1001, serial := 1, creation := 1} rfl

/-- C5: a `RouteByPid` request whose destination node is remote and
has no registered peer is seen by the loop exactly 4 times (the
original attempt plus 3 re-enqueued retries), `node.connect` is
called exactly 3 times (once when each retry is scheduled), and the
message is then dropped with the registrar state unchanged. -/
theorem C5_route_retry_bound (st : RegState) (sender dest : Pid) (msg : Term)
    (hremote : dest.node ≠ st.nodeName) (hnopeer : st.peers.contains dest.node = false) :
    routeDrive 5 st sender dest msg 0 = some (4, 3, st) := by
  have hmem : ¬ dest.node ∈ st.peers := by simpa using hnopeer
  simp [routeDrive, regStep, hremote, hmem]

/-- Witness for C5 at a concrete state and destination. -/
theorem C5_route_retry_bound_w :
    routeDrive 5 (initRegistrar "n@h")
      {node := "n@h", id := 1, serial := 1, creation := 1}
      {node := "other", id := 2, serial := 1, creation := 1} (Term.atom "m") 0 =
      some (4, 3, initRegistrar "n@h") :=
  C5_route_retry_bound (initRegistrar "n@h")
    {node := "n@h", id := 1, serial := 1, creation := 1}
    {node := "other", id := 2, serial := 1, creation := 1} (Term.atom "m")
    (by decide) (by decide)

/-- C6 counterexample: the claim says a SmallBig magnitude inside
the open range (−2^60, 2^60) is downgraded to int64; at the value
2^60 − 1 (inside that range) the code compares against
`biggestInt = 2^60 − 1` strictly and keeps the big integer. -/
theorem C6_boundary_not_downgraded :
    Decode [110, 8, 0, 255, 255, 255, 255, 255, 255, 255, 15] [] =
      .ok (.bigInt 1152921504606846975) ∧
    (1152921504606846975 : Int) < 2 ^ 60 ∧
    Decode [110, 8, 0, 255, 255, 255, 255, 255, 255, 255, 15] [] ≠
      .ok (.int64 1152921504606846975) := by
  refine ⟨rfl, by norm_num, ?_⟩
  intro h
  rw [show Decode [110, 8, 0, 255, 255, 255, 255, 255, 255, 255, 15] [] =
    .ok (.bigInt 1152921504606846975) from rfl] at h
  simp at h

/-- C6 amended: an `ettSmallBig` with n magnitude bytes, 8 ≤ n ≤ 253,
is downgraded to a 64-bit integer exactly when its signed value lies
strictly between −(2^60 − 1) and 2^60 − 1 (one less on each side
than the claimed open range), and `ettLargeBig` with a declared
count m ≤ 2^32 − 6 never downgrades: it returns the big integer
as-is whatever its magnitude.  (For n = 254/255, and for
m ≥ 2^32 − 5, the source's uint8/uint32 length arithmetic wraps and
the decoder panics at an inverted slice before reaching the big-int
path, so those header values are excluded.) -/
theorem C6_big_int_downgrade (n s : Nat) (bs : List Nat) (cache : List String)
    (hn8 : 8 ≤ n) (hn253 : n ≤ 253) (hlen : bs.length = n)
    (b0 b1 b2 b3 s2 m : Nat) (cs : List Nat) (cache2 : List String)
    (hbe : be32 b0 b1 b2 b3 = m) (hcs : cs.length = m) (h251 : 251 ≤ m)
    (hm : m ≤ 4294967290) :
    (Decode (110 :: n :: s :: bs) cache =
      (if (if s = 1 then -(leNat bs : Int) else (leNat bs : Int)) < biggestInt ∧
          lowestInt < (if s = 1 then -(leNat bs : Int) else (leNat bs : Int))
       then .ok (.int64 (if s = 1 then -(leNat bs : Int) else (leNat bs : Int)))
       else .ok (.bigInt (if s = 1 then -(leNat bs : Int) else (leNat bs : Int))))) ∧
    Decode (111 :: b0 :: b1 :: b2 :: b3 :: s2 :: cs) cache2 =
      .ok (.bigInt (if s2 = 1 then -(leNat cs : Int) else (leNat cs : Int))) := by
  constructor
  · have hmod : (n + 2) % 256 = n + 2 := Nat.mod_eq_of_lt (by omega)
    have hnotlt : ¬ n < 8 := by omega
    have hlen2 : ¬ bs.length < n := by omega
    have htake : List.take n bs = bs := by
      rw [← hlen]
      exact List.take_length bs
    have hdrop : List.drop n bs = [] := by
      rw [← hlen]
      exact List.drop_length bs
    unfold Decode
    simp only [List.length_cons]
    unfold decodeLoop
    unfold stage1
    simp only [ettAtomUTF8, ettAtom, ettSmallAtomUTF8, ettSmallAtom, ettString, ettCacheRef,
      ettNewFloat, ettSmallInteger, ettInteger, ettSmallBig, ettLargeBig]
    norm_num [hmod]
    rw [if_neg hnotlt, if_neg hlen2]
    simp only [htake, hdrop]
    by_cases hc : ((if s = 1 then -(leNat bs : Int) else (leNat bs : Int)) < biggestInt ∧
        lowestInt < (if s = 1 then -(leNat bs : Int) else (leNat bs : Int)))
    · rw [if_pos hc, if_pos hc]
      simp [placeLoop]
    · rw [if_neg hc, if_neg hc]
      simp [placeLoop]
  · have hmod : (m + 5) % 4294967296 = m + 5 := Nat.mod_eq_of_lt (by omega)
    unfold Decode
    simp only [List.length_cons]
    unfold decodeLoop
    unfold stage1
    simp only [ettAtomUTF8, ettAtom, ettSmallAtomUTF8, ettSmallAtom, ettString, ettCacheRef,
      ettNewFloat, ettSmallInteger, ettInteger, ettSmallBig, ettLargeBig]
    norm_num [hbe, hmod]
    have h1 : ¬ cs.length + 5 < 256 := by omega
    have h2 : ¬ cs.length < m := by omega
    have htake : List.take m cs = cs := by
      rw [← hcs]
      exact List.take_length cs
    have hdrop : List.drop m cs = [] := by
      rw [← hcs]
      exact List.drop_length cs
    simp [h1, h2, htake, hdrop, placeLoop]

/-- Witness for C6: a small positive SmallBig value downgrades and a
small positive LargeBig value stays a big integer. -/
theorem C6_big_int_downgrade_w :
    Decode [110, 8, 0, 1, 0, 0, 0, 0, 0, 0, 0] [] = .ok (.int64 1) ∧
    Decode (111 :: 0 :: 0 :: 0 :: 251 :: 0 :: 1 :: List.replicate 250 0) [] =
      .ok (.bigInt 1) := by
  have h := C6_big_int_downgrade 8 0 [1, 0, 0, 0, 0, 0, 0, 0] [] (by omega) (by omega) rfl
    0 0 0 251 0 251 (1 :: List.replicate 250 0) [] rfl (by simp) (by omega) (by omega)
  refine ⟨?_, ?_⟩
  · rw [h.1]
    rfl
  · rw [h.2]
    rfl

/-- C8: `Decode` succeeds only when it consumes the whole input: if
the main loop finishes with bytes left over, the strict framing
check returns the packet-length error and no term. -/
theorem C8_strict_packet_framing (packet : List Nat) (cache : List String) (tm : Term)
    (rest : List Nat)
    (h : decodeLoop cache (packet.length + 1) packet [] = .ok (tm, rest)) (hne : rest ≠ []) :
    Decode packet cache = .error .malformedPacketLength := by
  unfold Decode
  rw [h]
  have hp : rest.length > 0 := List.length_pos.mpr hne
  simp [hp]

/-- Witness for C8: a nil term followed by one trailing byte. -/
theorem C8_strict_packet_framing_w : Decode [106, 0] [] = .error .malformedPacketLength :=
  C8_strict_packet_framing [106, 0] [] (.list []) [0] rfl (by decide)

/-- C9: on a child EXIT message, the Permanent strategy stops the
remaining children with the received reason, requests node shutdown
and returns "shutdown"; the Transient strategy continues when the
reason is "normal" or "shutdown" and otherwise stops the remaining
children with reason "normal", requests node shutdown and returns
the received reason; the Temporary strategy continues and performs
no action on the siblings. -/
theorem C9_exit_strategy_matrix (children : List Pid) (terminated : Pid) (reason : String)
    (hchild : terminated ∈ children) :
    (handleChildExit strategyPermanent children terminated reason =
      .ok ((children.filter (fun c => c ≠ terminated)).map
          (fun c => AppAction.exitChild c reason) ++ [.nodeStop], .ret "shutdown")) ∧
    (reason = "normal" ∨ reason = "shutdown" →
      handleChildExit strategyTransient children terminated reason = .ok ([], .continueLoop)) ∧
    (reason ≠ "normal" → reason ≠ "shutdown" →
      handleChildExit strategyTransient children terminated reason =
        .ok ((children.filter (fun c => c ≠ terminated)).map
            (fun c => AppAction.exitChild c "normal") ++ [.nodeStop], .ret reason)) ∧
    (handleChildExit strategyTemporary children terminated reason = .ok ([], .continueLoop)) := by
  refine ⟨?_, ?_, ?_, ?_⟩
  · simp [handleChildExit, strategyPermanent, strategyTransient, strategyTemporary, hchild,
      stopChildren_eq]
  · intro h
    rcases h with h | h <;>
      simp [handleChildExit, strategyPermanent, strategyTransient, strategyTemporary, hchild, h]
  · intro h1 h2
    simp [handleChildExit, strategyPermanent, strategyTransient, strategyTemporary, hchild,
      h1, h2, stopChildren_eq]
  · simp [handleChildExit, strategyPermanent, strategyTransient, strategyTemporary, hchild]

/-- Witness for C9 with two concrete children and a crash reason. -/
theorem C9_exit_strategy_matrix_w :
    (handleChildExit strategyPermanent [pidA, pidB] pidA "crash" =
      .ok (([pidA, pidB].filter (fun c => c ≠ pidA)).map
          (fun c => AppAction.exitChild c "crash") ++ [.nodeStop], .ret "shutdown")) ∧
    ("crash" = "normal" ∨ "crash" = "shutdown" →
      handleChildExit strategyTransient [pidA, pidB] pidA "crash" = .ok ([], .continueLoop)) ∧
    ("crash" ≠ "normal" → "crash" ≠ "shutdown" →
      handleChildExit strategyTransient [pidA, pidB] pidA "crash" =
        .ok (([pidA, pidB].filter (fun c => c ≠ pidA)).map
            (fun c => AppAction.exitChild c "normal") ++ [.nodeStop], .ret "crash")) ∧
    (handleChildExit strategyTemporary [pidA, pidB] pidA "crash" = .ok ([], .continueLoop)) :=
  C9_exit_strategy_matrix [pidA, pidB] pidA "crash" (by decide)

/-- C10: every input whose root tag is `ettList` with a declared
4-byte element count of zero yields the list-specific Malformed
error, whatever follows and whatever the atom cache. -/
theorem C10_zero_length_list_malformed (rest : List Nat) (cache : List String) :
    Decode (108 :: 0 :: 0 :: 0 :: 0 :: rest) cache = .error .malformedList := rfl

/-- Witness for C10 at a concrete input. -/
theorem C10_zero_length_list_malformed_w :
    Decode [108, 0, 0, 0, 0, 1, 2] [] = .error .malformedList :=
  C10_zero_length_list_malformed [1, 2] []

end Ergo
